import Mathlib

/-!
Verification of the interactive greedy time-block scheduler of
`notiontriage` (`src/main.py`) against its specification.

Shallow embedding conventions:
* Instants are minutes on a single fixed-offset local timeline (a `Nat`);
  `astimezone` conversions leave the instant unchanged, so they are
  identities here.  `dt.hour` is `hourOfMin`, `dt.date()` is `dateOf`
  (a day index).
* A Notion due value is either a date-only ISO string or a datetime ISO
  string (`DueV`); `datetime.fromisoformat` maps a date-only string to
  midnight of its day (`DueV.toMin`).
* Task snapshots carry the property lookups of `main.py` already applied
  (`get_task_name`, priority/status/done lookups with their defaults).
* Store writes are accumulated as a list of `Patch` values.
* Operator input is a list of `Tok`, one token per line read by `input()`,
  classified exactly the way the dialogs of `schedule_single_task`
  classify the raw string.  Reading from an exhausted list models the
  `EOFError` that would kill the process (`SRes.aborted`).
-/

namespace NotionTriage

/-- A Notion date property value: date-only (day index) or a datetime
(minutes on the local timeline). -/
inductive DueV where
  | date (d : Nat)
  | dateTime (t : Nat)
deriving DecidableEq

/-- Minutes instant of a parsed due value (`datetime.fromisoformat` maps a
date-only string to midnight of its day). -/
def DueV.toMin : DueV → Nat
  | .date d => d * 1440
  | .dateTime t => t

/-- Task snapshot, with the property lookups of `main.py` already applied. -/
structure Task where
  id : Nat
  name : String
  priority : String
  status : String
  done : Bool
  dueStart : Option DueV
  dueEnd : Option DueV
deriving DecidableEq

/-- A write-back to the task store. -/
inductive Patch where
  | dateOnly (id : Nat) (d : Nat)
  | dateTime (id : Nat) (s e : Nat) (priority : String)
  | statusDone (id : Nat)
deriving DecidableEq

/-- One line of operator input, classified the way the dialogs of
`schedule_single_task` classify the raw string: the single-letter tokens,
the literal `ACCEPT ALL`, a string that parses as a clock time of day
(`time m`, `m` minutes after local midnight), or anything else. -/
inductive Tok where
  | Y | S | X | C | H | W | T | R | Q
  | acceptAll
  | time (m : Nat)
  | other
deriving DecidableEq

/-- The mutable session state threaded through `schedule_single_task`:
the in-memory `current_schedule`, the duplicate-suppression set
`scheduled_task_names`, the accumulated store patches, and a count of
boundary sub-dialog entries (instrumentation for the boundary claims). -/
structure SState where
  schedule : List Task
  names : List String
  patches : List Patch
  dialogs : Nat
deriving DecidableEq

/-- First component of `schedule_single_task`'s return tuple: a new cursor
time (`cont`), the Python `None` (`halt`), or death by input exhaustion
(`aborted`). -/
inductive SRes where
  | cont (t : Nat)
  | halt
  | aborted
deriving DecidableEq

/-- Full result of one `schedule_single_task` call: the returned tuple
`(time-or-None, allow_late_night, ignore_availability, accept_all)`,
the mutated session state and the unread input. -/
structure SOut where
  res : SRes
  allow : Bool
  ignore : Bool
  acceptAll : Bool
  st : SState
  rest : List Tok
deriving DecidableEq

/-- Lines 51-56 of `main.py` plus the `.get(priority, 30)` default used at
line 597: the Time-Block Policy lookup table. -/
def priorityToTimeBlock (p : String) : Nat :=
  if p = "Low" then 5
  else if p = "Medium" then 15
  else if p = "High" then 30
  else if p = "Must Be Done Today" then 30
  else 30

/-- Local wall-clock hour of an instant. -/
def hourOfMin (t : Nat) : Nat := t % 1440 / 60

/-- Local calendar date (day index) of an instant. -/
def dateOf (t : Nat) : Nat := t / 1440

/-- `check_for_overlap` (lines 423-437): half-open intersection of the
candidate `[ps, pe)` against every fully time-boxed entry of the in-memory
schedule; entries missing a start or an end are skipped. -/
def checkForOverlap (sched : List Task) (ps pe : Nat) : Bool :=
  sched.any fun t =>
    match t.dueStart, t.dueEnd with
    | some s, some e => decide (ps < e.toMin ∧ pe > s.toMin)
    | _, _ => false

/-- Largest end instant among the fully time-boxed schedule entries (the
entries `check_for_overlap` does not skip); used to size the repair fuel. -/
def maxDueEnd (sched : List Task) : Nat :=
  sched.foldr
    (fun t acc =>
      match t.dueStart, t.dueEnd with
      | some _, some e => max e.toMin acc
      | _, _ => acc)
    0

/-- Body of the overlap-repair `while` loops (lines 642-645 and 706-709):
while the candidate overlaps the schedule, the candidate start becomes the
previous candidate end and the end is recomputed from the block duration.
Expressed with fuel; `repairedWindow` supplies fuel that provably suffices
(`repairGo_clear`), so the fuel-exhausted branch is never reached there. -/
def repairGo (sched : List Task) (tbm : Nat) : Nat → Nat → Nat → Nat × Nat
  | 0, s, e => (s, e)
  | fuel + 1, s, e =>
    if checkForOverlap sched s e then repairGo sched tbm fuel e (e + tbm) else (s, e)

/-- The overlap-repair loop run to completion on candidate `[s, e)`. -/
def repairedWindow (sched : List Task) (tbm s e : Nat) : Nat × Nat :=
  repairGo sched tbm (maxDueEnd sched + 1 - s) s e

/-- `wrap_to_9am_if_needed` (lines 576-584): re-anchor to 09:00 local on the
target date when off-date or at hour 23 or later, then clip forward to now. -/
def wrapTo9am (now dt targetDate : Nat) : Nat :=
  let candidate :=
    if dateOf dt ≠ targetDate ∨ 23 ≤ hourOfMin dt then targetDate * 1440 + 9 * 60 else dt
  max candidate now

/-- Lines 598-610: initial candidate window from the cursor.  The "Not
started [later]" status forces an 18:00 start when earlier.  Note that every
branch of lines 601-610 overwrites the policy-based end computed at line 600
with `start + 30` (line 610 uses `current_time + 30`, the same instant), so
the initial window is always 30 minutes wide regardless of priority. -/
def initialWindow (currentTime : Nat) (status : String) : Nat × Nat :=
  if status = "Not started [later]" then
    if hourOfMin currentTime < 18 then
      (dateOf currentTime * 1440 + 18 * 60, dateOf currentTime * 1440 + 18 * 60 + 30)
    else (currentTime, currentTime + 30)
  else (currentTime, currentTime + 30)

/-- Lines 634-647 (and their copy at 699-711): under ignore-availability the
candidate is re-anchored via `wrap_to_9am_if_needed` on its own date and the
end recomputed from the duration when the anchor moved; otherwise the
overlap-repair loop runs against the in-memory schedule. -/
def proposedWindow (now : Nat) (sched : List Task) (tbm : Nat) (ignore : Bool)
    (s e : Nat) : Nat × Nat :=
  if ignore then
    let s9 := wrapTo9am now s (dateOf s)
    if s9 ≠ s then (s9, s9 + tbm) else (s, e)
  else repairedWindow sched tbm s e

/-- The interactive decision loop of `schedule_single_task` (lines 671-726
and 743-770), one recursive step per line read.  The loop breaks only on
`ACCEPT ALL`, `Y`, `S`, `X`, `C`, `H`, `W`; a parseable clock time replaces
the candidate start and re-runs the repair (or re-anchor) step; every other
line - including `R`, whose rename branch at lines 727-742 is unreachable
because `R` is not in the break list at line 684 - is rejected with
"Invalid time format" and re-prompts. -/
def decisionLoop (testMode : Bool) (now : Nat) (task : Task) (tbm : Nat) :
    Nat → Nat → SState → Bool → Bool → Bool → List Tok → SOut
  | _, _, st, acceptAll, allow, ignore, [] => ⟨.aborted, allow, ignore, acceptAll, st, []⟩
  | s, e, st, acceptAll, allow, ignore, tok :: rest =>
    match tok with
    | .acceptAll =>
      if testMode then ⟨.cont e, allow, ignore, true, st, rest⟩
      else
        let sched := if task ∈ st.schedule then st.schedule else st.schedule ++ [task]
        ⟨.cont e, allow, ignore, true,
          { st with schedule := sched,
                    patches := st.patches ++ [.dateTime task.id s e task.priority] }, rest⟩
    | .Y =>
      if testMode then ⟨.cont e, allow, ignore, acceptAll, st, rest⟩
      else
        let sched := if task ∈ st.schedule then st.schedule else st.schedule ++ [task]
        ⟨.cont e, allow, ignore, acceptAll,
          { st with schedule := sched,
                    patches := st.patches ++ [.dateTime task.id s e task.priority] }, rest⟩
    | .S =>
      if testMode then ⟨.halt, allow, ignore, acceptAll, st, rest⟩
      else ⟨.halt, allow, ignore, acceptAll,
            { st with patches := st.patches ++ [.dateOnly task.id (dateOf s + 1)] }, rest⟩
    | .X =>
      if testMode then ⟨.cont e, allow, ignore, acceptAll, st, rest⟩
      else ⟨.cont e, allow, ignore, acceptAll,
            { st with schedule := st.schedule.erase task,
                      patches := st.patches ++ [.statusDone task.id] }, rest⟩
    | .C =>
      if testMode then ⟨.cont e, allow, ignore, acceptAll, st, rest⟩
      else ⟨.cont e, allow, ignore, acceptAll,
            { st with schedule := st.schedule.erase task,
                      patches := st.patches ++ [.statusDone task.id] }, rest⟩
    | .H =>
      if testMode then ⟨.cont e, allow, ignore, acceptAll, st, rest⟩
      else
        let sched := if task ∈ st.schedule then st.schedule else st.schedule ++ [task]
        ⟨.cont e, allow, ignore, acceptAll,
          { st with schedule := sched,
                    patches := st.patches ++ [.dateTime task.id s e "High"] }, rest⟩
    | .W =>
      if testMode then ⟨.halt, allow, ignore, acceptAll, st, rest⟩
      else ⟨.halt, allow, ignore, acceptAll,
            { st with patches := st.patches ++ [.dateOnly task.id (dateOf s + 7)] }, rest⟩
    | .time m =>
      let s' := dateOf s * 1440 + m
      let pe := proposedWindow now st.schedule tbm ignore s' (s' + tbm)
      decisionLoop testMode now task tbm pe.1 pe.2 st acceptAll allow ignore rest
    | _ => decisionLoop testMode now task tbm s e st acceptAll allow ignore rest

/-- Lines 634-670 of `schedule_single_task`, after the boundary check:
re-anchor or repair the window, then the duplicate-name guard (lines
650-652), then either the silent accept-all commit (lines 653-663, which
also rewrites the in-memory task's due window before appending it) or the
interactive presentation, which adds the display name to
`scheduled_task_names` (line 670) before any decision token is read. -/
def sstCore (testMode : Bool) (now : Nat) (task : Task) (currentTime : Nat)
    (tbm s1 e1 : Nat) (st : SState) (acceptAll allow ignore : Bool)
    (input : List Tok) : SOut :=
  let pe := proposedWindow now st.schedule tbm ignore s1 e1
  if task.name ∈ st.names then
    ⟨.cont currentTime, allow, ignore, acceptAll, st, input⟩
  else if acceptAll then
    if testMode then ⟨.cont pe.2, allow, ignore, acceptAll, st, input⟩
    else
      let t' := { task with dueStart := some (.dateTime pe.1), dueEnd := some (.dateTime pe.2) }
      let sched := if t' ∈ st.schedule then st.schedule else st.schedule ++ [t']
      ⟨.cont pe.2, allow, ignore, acceptAll,
        { st with schedule := sched,
                  patches := st.patches ++ [.dateTime task.id pe.1 pe.2 task.priority] }, input⟩
  else
    decisionLoop testMode now task tbm pe.1 pe.2
      { st with names := task.name :: st.names } acceptAll allow ignore input

/-- `schedule_single_task` (lines 590-770): compute the initial window,
run the boundary sub-dialog (lines 611-633) when the candidate start's local
hour is at least 23 and neither override flag is set, then continue with
`sstCore`.  The dialog maps `Y` to allow-late-night, `T` to defer-to-tomorrow
(date-only patch, `None` returned), `R` to ignore-availability, and anything
else to quitting the session (`None` returned). -/
def scheduleSingleTask (testMode : Bool) (now : Nat) (task : Task) (currentTime : Nat)
    (st : SState) (acceptAll allow ignore : Bool) (input : List Tok) : SOut :=
  let tbm := priorityToTimeBlock task.priority
  let w := initialWindow currentTime task.status
  if 23 ≤ hourOfMin w.1 ∧ allow = false ∧ ignore = false then
    let st' := { st with dialogs := st.dialogs + 1 }
    match input with
    | [] => ⟨.aborted, allow, ignore, acceptAll, st', []⟩
    | .Y :: rest => sstCore testMode now task currentTime tbm w.1 w.2 st' acceptAll true ignore rest
    | .T :: rest =>
      if testMode then ⟨.halt, allow, ignore, acceptAll, st', rest⟩
      else ⟨.halt, allow, ignore, acceptAll,
            { st' with patches := st'.patches ++ [.dateOnly task.id (dateOf w.1 + 1)] }, rest⟩
    | .R :: rest => sstCore testMode now task currentTime tbm w.1 w.2 st' acceptAll allow true rest
    | _ :: rest => ⟨.halt, allow, ignore, acceptAll, st', rest⟩
  else
    sstCore testMode now task currentTime tbm w.1 w.2 st acceptAll allow ignore input

/-- Result of draining a task queue (the `while` loops of
`schedule_tasks_in_pattern`): whether the drain stopped early on a `None`
return, the final cursor, flags, state, unread input, and the tasks left
unprocessed by an early stop. -/
structure RunOut where
  halted : Bool
  time : Nat
  allow : Bool
  ignore : Bool
  acceptAll : Bool
  st : SState
  rest : List Tok
  remaining : List Task
deriving DecidableEq

/-- One `while` loop of `schedule_tasks_in_pattern` (lines 794-808 and
809-823): pop tasks in order, thread the cursor, flags and state through
`schedule_single_task`, and return as soon as a call yields `None`
(`halt`) or dies on exhausted input (`aborted`). -/
def runQueue (testMode : Bool) (now : Nat) :
    List Task → Nat → SState → Bool → Bool → Bool → List Tok → RunOut
  | [], ct, st, acceptAll, allow, ignore, input =>
    ⟨false, ct, allow, ignore, acceptAll, st, input, []⟩
  | t :: ts, ct, st, acceptAll, allow, ignore, input =>
    let o := scheduleSingleTask testMode now t ct st acceptAll allow ignore input
    match o.res with
    | .cont nt => runQueue testMode now ts nt o.st o.acceptAll o.allow o.ignore o.rest
    | _ => ⟨true, ct, o.allow, o.ignore, o.acceptAll, o.st, o.rest, ts⟩

/-- Lines 789-823 of `schedule_tasks_in_pattern`: seed the in-memory
schedule and the three mode flags, drain the first queue and, if it
completed, the second with the threaded cursor, flags and state.  An early
`None` abandons every remaining task of both queues. -/
def driveQueues (testMode : Bool) (now : Nat) (q1 q2 : List Task)
    (startingTime : Nat) (initSchedule : List Task) (input : List Tok) : RunOut :=
  let st0 : SState := ⟨initSchedule, [], [], 0⟩
  let r1 := runQueue testMode now q1 startingTime st0 false false false input
  if r1.halted then { r1 with remaining := r1.remaining ++ q2 }
  else runQueue testMode now q2 r1.time r1.st r1.acceptAll r1.allow r1.ignore r1.rest

/-- `schedule_tasks_in_pattern` (lines 772-823): drop done tasks, split into
the high queue (High / Must Be Done Today) and the low queue, stably move
Must Be Done Today tasks to the front of the high queue (the stable
boolean-key sort of line 788 is a stable partition), seed the in-memory
schedule from the store's time-boxed tasks (`fetch_current_schedule`, here a
parameter), then drain the high queue and then the low queue. -/
def scheduleTasksInPattern (testMode : Bool) (now : Nat) (tasks : List Task)
    (startingTime : Nat) (initSchedule : List Task) (input : List Tok) : RunOut :=
  let active := tasks.filter fun t => !t.done
  let isHigh : Task → Bool := fun t =>
    t.priority == "High" || t.priority == "Must Be Done Today"
  let high := active.filter isHigh
  let low := active.filter fun t => !isHigh t
  let highSorted :=
    high.filter (fun t => t.priority == "Must Be Done Today")
      ++ high.filter (fun t => !(t.priority == "Must Be Done Today"))
  driveQueues testMode now highSorted low startingTime initSchedule input

/-- Binarized priority of the Conflict Reconciler (`get_priority_level`,
lines 441-444). -/
def getPriorityLevel (t : Task) : String :=
  if t.priority = "High" ∨ t.priority = "Must Be Done Today" then "High" else "Low"

/-- `get_task_times` (lines 447-456): the task's parsed window, or nothing
when either field is missing. -/
def getTaskTimes (t : Task) : Option (Nat × Nat) :=
  match t.dueStart, t.dueEnd with
  | some s, some e => some (s.toMin, e.toMin)
  | _, _ => none

/-- Lines 457-470: all index pairs `i < j` of time-boxed tasks whose windows
intersect under the half-open rule, in the scan order of the nested loops. -/
def overlapPairs : List Task → List (Task × Task)
  | [] => []
  | a :: rest =>
    (match getTaskTimes a with
     | none => []
     | some w =>
       rest.filterMap fun b =>
         match getTaskTimes b with
         | some wb => if w.1 < wb.2 ∧ wb.1 < w.2 then some (a, b) else none
         | none => none)
      ++ overlapPairs rest

/-- Accumulator of the Conflict Reconciler's pair loop: store patches issued
so far, the in-memory kept list (`current_schedule`), and `handled_ids`. -/
structure RecState where
  patches : List Patch
  kept : List Task
  handled : List Nat
deriving DecidableEq

/-- One iteration of the pair loop (lines 474-490): pairs touching an
already handled id are skipped wholesale; otherwise both tasks are patched
to a date-only due date of today and the kept list is filtered by the
binarized-priority tie-break. -/
def reconcileStep (today : Nat) (st : RecState) (pr : Task × Task) : RecState :=
  if pr.1.id ∈ st.handled ∨ pr.2.id ∈ st.handled then st
  else
    let patches := st.patches ++ [.dateOnly pr.1.id today, .dateOnly pr.2.id today]
    let aP := getPriorityLevel pr.1
    let bP := getPriorityLevel pr.2
    let kept :=
      if aP = "High" ∧ bP = "Low" then st.kept.filter fun t => t.id ≠ pr.2.id
      else if aP = "Low" ∧ bP = "High" then st.kept.filter fun t => t.id ≠ pr.1.id
      else if aP = "Low" ∧ bP = "Low" then
        st.kept.filter fun t => t.id ≠ pr.1.id ∧ t.id ≠ pr.2.id
      else st.kept
    ⟨patches, kept, pr.1.id :: pr.2.id :: st.handled⟩

/-- `handle_overlapping_due_dates` (lines 439-490), with today's date a
parameter: collect the overlapping pairs, then fold the pair loop over them
starting from the given schedule and no handled ids. -/
def handleOverlappingDueDates (today : Nat) (sched : List Task) : RecState :=
  (overlapPairs sched).foldl (reconcileStep today) ⟨[], sched, []⟩

/-- Stable insertion by interval start, mirroring the stable
`busy_periods.sort(key=lambda x: x[0])` at line 509. -/
def insertByStart (x : Nat × Nat) : List (Nat × Nat) → List (Nat × Nat)
  | [] => [x]
  | y :: ys => if x.1 < y.1 then x :: y :: ys else y :: insertByStart x ys

/-- Stable sort of busy intervals by start. -/
def sortByStart (l : List (Nat × Nat)) : List (Nat × Nat) :=
  l.foldr insertByStart []

/-- Lines 498-508 of `calculate_available_time_blocks`: busy windows still
ending after the effective current time `ct0`, their starts clipped to it. -/
def busyPeriods (ct0 : Nat) (sched : List Task) : List (Nat × Nat) :=
  sched.filterMap fun t =>
    match t.dueStart, t.dueEnd with
    | some s, some e =>
      if ct0 < e.toMin then some (max s.toMin ct0, e.toMin) else none
    | _, _ => none

/-- Lines 511-514, one busy interval of the sweep: emit the gap before the
busy start if there is one, then advance the cursor past the busy end. -/
def sweepStep (acc : List (Nat × Nat) × Nat) (bp : Nat × Nat) :
    List (Nat × Nat) × Nat :=
  (if acc.2 < bp.1 then acc.1 ++ [(acc.2, bp.1)] else acc.1, max acc.2 bp.2)

/-- `calculate_available_time_blocks` (lines 492-517): collect busy windows
still ending after the effective current time `max(start_of_day, now)`,
clip their starts to it, sort by start, then sweep gaps between the
advancing cursor and each busy start; any residue before the end of the
window is a final free block. -/
def calcAvailable (now : Nat) (sched : List Task) (startHour endHour : Nat) :
    List (Nat × Nat) :=
  let startOfDay := dateOf now * 1440 + startHour * 60
  let endOfDay := dateOf now * 1440 + endHour * 60
  let ct0 := max startOfDay now
  let swept := (sortByStart (busyPeriods ct0 sched)).foldl sweepStep
    (([] : List (Nat × Nat)), ct0)
  if swept.2 < endOfDay then swept.1 ++ [(swept.2, endOfDay)] else swept.1

/-- Overlap Checker applied to one schedule entry's own window against
another entry, as in the spec's pairwise invariant; an entry without a full
window never reports an overlap. -/
def taskOverlap (a b : Task) : Bool :=
  match a.dueStart, a.dueEnd with
  | some s, some e => checkForOverlap [b] s.toMin e.toMin
  | _, _ => false

/-- No two entries of the in-memory schedule intersect under the half-open
rule, as reported by the Overlap Checker. -/
def NoOverlapSchedule (sched : List Task) : Prop :=
  List.Pairwise (fun a b => taskOverlap a b = false) sched

/-- Effect on a task of the store applying an `update_date_only` patch
(lines 258-268): the due object is replaced by a bare date-only start, so
any end timestamp is cleared. -/
def applyDateOnlyPatch (d : Nat) (t : Task) : Task :=
  { t with dueStart := some (.date d), dueEnd := none }

/-- Modelled from the spec: the assigned-time flag of the data model,
"true once a task has a concrete (start, end) rather than a bare date".
The store-side checkbox itself is maintained outside `src/`, so it is
embedded as this derived predicate on the due window. -/
def hasAssignedTime (t : Task) : Bool :=
  match t.dueStart, t.dueEnd with
  | some (.dateTime _), some (.dateTime _) => true
  | _, _ => false

/-- High-class priority in the sense of the tie-break claims: High or
Must Be Done Today. -/
def isHighClass (t : Task) : Bool :=
  t.priority == "High" || t.priority == "Must Be Done Today"

/-- Concrete Low-priority task with a date-only due date. -/
def lowTaskA : Task := ⟨1, "a", "Low", "Not started", false, some (.date 0), none⟩

/-- Second concrete Low-priority task, distinct name. -/
def lowTaskB : Task := ⟨2, "b", "Low", "Not started", false, some (.date 0), none⟩

/-- Task distinct from `lowTaskA` but sharing its display name. -/
def sameNameTask : Task := ⟨2, "a", "Low", "Not started", false, some (.date 0), none⟩

/-- High-priority task time-boxed 09:00-10:00 on day 0. -/
def highWindowTask : Task :=
  ⟨10, "A", "High", "Not started", false, some (.dateTime 540), some (.dateTime 600)⟩

/-- Low-priority task time-boxed 09:30-10:30 on day 0, overlapping
`highWindowTask`. -/
def lowWindowTask : Task :=
  ⟨11, "B", "Low", "Not started", false, some (.dateTime 570), some (.dateTime 630)⟩

/-- Task time-boxed 23:30-23:45, past the 23:00 window end. -/
def lateWindowTask : Task :=
  ⟨3, "late", "Low", "Not started", false, some (.dateTime 1410), some (.dateTime 1425)⟩

/-- Fresh session state. -/
def emptyState : SState := ⟨[], [], [], 0⟩

/-! ## Basic lemmas -/

theorem priorityToTimeBlock_pos (p : String) : 0 < priorityToTimeBlock p := by
  unfold priorityToTimeBlock
  repeat' split
  all_goals norm_num

theorem initialWindow_snd (ct : Nat) (status : String) :
    (initialWindow ct status).2 = (initialWindow ct status).1 + 30 := by
  unfold initialWindow
  repeat' split
  all_goals rfl

theorem checkForOverlap_false_elem {sched : List Task} {ps pe : Nat}
    (h : checkForOverlap sched ps pe = false) {t : Task} (ht : t ∈ sched)
    {s e : DueV} (hs : t.dueStart = some s) (he : t.dueEnd = some e) :
    ¬(ps < e.toMin ∧ pe > s.toMin) := by
  simp only [checkForOverlap, List.any_eq_false] at h
  have h' := h t ht
  rw [hs, he] at h'
  simpa using h'

theorem le_maxDueEnd {sched : List Task} {t : Task} (ht : t ∈ sched) {s e : DueV}
    (h1 : t.dueStart = some s) (h2 : t.dueEnd = some e) :
    e.toMin ≤ maxDueEnd sched := by
  induction sched with
  | nil => cases ht
  | cons a rest ih =>
    rcases List.mem_cons.1 ht with rfl | hmem
    · simp only [maxDueEnd, List.foldr_cons, h1, h2]
      exact Nat.le_max_left _ _
    · have hrec := ih hmem
      simp only [maxDueEnd, List.foldr_cons] at hrec ⊢
      cases ha : a.dueStart <;> cases hb : a.dueEnd <;> simp [ha, hb] <;> omega

theorem checkForOverlap_true_lt {sched : List Task} {s e : Nat}
    (h : checkForOverlap sched s e = true) : s < maxDueEnd sched := by
  simp only [checkForOverlap, List.any_eq_true] at h
  obtain ⟨t, ht, hp⟩ := h
  cases h1 : t.dueStart with
  | none => rw [h1] at hp; simp at hp
  | some ds =>
    cases h2 : t.dueEnd with
    | none => rw [h1, h2] at hp; simp at hp
    | some de =>
      rw [h1, h2] at hp
      simp only [decide_eq_true_eq] at hp
      exact Nat.lt_of_lt_of_le hp.1 (le_maxDueEnd ht h1 h2)

theorem repairGo_clear {sched : List Task} {tbm : Nat} (htbm : 0 < tbm) :
    ∀ (fuel s e : Nat), s < e → maxDueEnd sched + 1 ≤ fuel + s →
      checkForOverlap sched (repairGo sched tbm fuel s e).1
        (repairGo sched tbm fuel s e).2 = false := by
  intro fuel
  induction fuel with
  | zero =>
    intro s e _ hf
    unfold repairGo
    cases hov : checkForOverlap sched s e with
    | false => rfl
    | true => exact absurd (checkForOverlap_true_lt hov) (by omega)
  | succ n ih =>
    intro s e hse hf
    unfold repairGo
    cases hov : checkForOverlap sched s e with
    | false => simp [hov]
    | true =>
      have hlt := checkForOverlap_true_lt hov
      simp only [hov, if_true]
      exact ih e (e + tbm) (by omega) (by omega)

theorem repairedWindow_clear {sched : List Task} {tbm s e : Nat}
    (htbm : 0 < tbm) (hse : s < e) :
    checkForOverlap sched (repairedWindow sched tbm s e).1
      (repairedWindow sched tbm s e).2 = false :=
  repairGo_clear htbm _ s e hse (by omega)

/-! ## Claim theorems -/

/-- C1: the claim says the window committed via Apply is `priority_to_time_block`
minutes long.  At the failing input - a Low-priority, "Not started" task at
cursor 10:00 with an empty schedule, decision `Y` - the code commits a
30-minute window 10:00-10:30 (line 610 of `main.py` overwrites the policy end
with `current_time + 30`), while the policy assigns Low 5 minutes. -/
theorem C1_apply_commits_thirty_minutes_for_low :
    (scheduleSingleTask false 0 lowTaskA 600 emptyState false false false [Tok.Y]).st.patches
        = [Patch.dateTime 1 600 630 "Low"]
      ∧ (scheduleSingleTask false 0 lowTaskA 600 emptyState false false false [Tok.Y]).res
        = SRes.cont 630
      ∧ priorityToTimeBlock "Low" = 5
      ∧ 630 - 600 = 30 := by
  decide

/-- C8: every duration of the Time-Block Policy (default included) is strictly
positive, and the overlap-repair loop - each iteration of which replaces the
candidate start with the previous candidate end - terminates on every schedule
with a candidate that overlaps no schedule entry. -/
theorem C8_overlap_repair_terminates :
    (∀ p, 0 < priorityToTimeBlock p) ∧
    ∀ (sched : List Task) (tbm s e : Nat), 0 < tbm → s < e →
      checkForOverlap sched (repairedWindow sched tbm s e).1
        (repairedWindow sched tbm s e).2 = false :=
  ⟨priorityToTimeBlock_pos, fun _ _ _ _ htbm hse => repairedWindow_clear htbm hse⟩

/-- Witness for C8 at a concrete schedule and candidate. -/
theorem C8_overlap_repair_terminates_witness :
    (0 : Nat) < 30 ∧ (540 : Nat) < 570 ∧
      checkForOverlap [highWindowTask]
        (repairedWindow [highWindowTask] 30 540 570).1
        (repairedWindow [highWindowTask] 30 540 570).2 = false :=
  ⟨by decide, by decide,
    C8_overlap_repair_terminates.2 [highWindowTask] 30 540 570 (by decide) (by decide)⟩

theorem isHighClass_iff {t : Task} :
    isHighClass t = true ↔ (t.priority = "High" ∨ t.priority = "Must Be Done Today") := by
  simp [isHighClass]

theorem getPriorityLevel_of_high {t : Task} (h : isHighClass t = true) :
    getPriorityLevel t = "High" := by
  unfold getPriorityLevel
  rw [if_pos (isHighClass_iff.1 h)]

theorem getPriorityLevel_of_low {t : Task} (h : isHighClass t = false) :
    getPriorityLevel t = "Low" := by
  unfold getPriorityLevel
  rw [if_neg]
  intro hc
  rw [isHighClass_iff.2 hc] at h
  cases h

/-- C4: a pair of overlapping time-boxed tasks neither of whose ids was
handled earlier gets both members patched to a date-only due date, and the
in-memory kept set is filtered by the binarized-priority tie-break (both kept
when both High-class, the Low-class one dropped when exactly one is
High-class, both dropped when both Low-class); and on the concrete scenario
A(High, 09:00-10:00), B(Low, 09:30-10:30) the Conflict Reconciler patches
both to date-only and keeps only A. -/
theorem C4_conflict_reconciler_tie_break :
    (∀ (today : Nat) (st : RecState) (a b : Task),
        a.id ∉ st.handled → b.id ∉ st.handled →
        (reconcileStep today st (a, b)).patches
            = st.patches ++ [Patch.dateOnly a.id today, Patch.dateOnly b.id today] ∧
        (reconcileStep today st (a, b)).kept =
          (if isHighClass a then
            (if isHighClass b then st.kept else st.kept.filter fun t => t.id ≠ b.id)
          else
            (if isHighClass b then st.kept.filter fun t => t.id ≠ a.id
             else st.kept.filter fun t => t.id ≠ a.id ∧ t.id ≠ b.id))) ∧
    handleOverlappingDueDates 99 [highWindowTask, lowWindowTask]
      = ⟨[Patch.dateOnly 10 99, Patch.dateOnly 11 99], [highWindowTask], [10, 11]⟩ := by
  constructor
  · intro today st a b ha hb
    unfold reconcileStep
    rw [if_neg (by simp [ha, hb])]
    refine ⟨rfl, ?_⟩
    rcases Bool.eq_false_or_eq_true (isHighClass a) with hA | hA <;>
      rcases Bool.eq_false_or_eq_true (isHighClass b) with hB | hB <;>
        simp [hA, hB, getPriorityLevel_of_high, getPriorityLevel_of_low]
  · decide

/-- Witness for the general tie-break part of C4 at the scenario pair. -/
theorem C4_conflict_reconciler_tie_break_witness :
    (10 : Nat) ∉ ([] : List Nat) ∧ (11 : Nat) ∉ ([] : List Nat) ∧
      (reconcileStep 99 ⟨[], [highWindowTask, lowWindowTask], []⟩
          (highWindowTask, lowWindowTask)).kept = [highWindowTask] := by
  refine ⟨by decide, by decide, ?_⟩
  have h := (C4_conflict_reconciler_tie_break.1 99
    ⟨[], [highWindowTask, lowWindowTask], []⟩ highWindowTask lowWindowTask
    (by decide) (by decide)).2
  rw [h]
  decide

theorem mem_insertByStart {x y : Nat × Nat} {l : List (Nat × Nat)} :
    y ∈ insertByStart x l ↔ y = x ∨ y ∈ l := by
  induction l with
  | nil => simp [insertByStart]
  | cons a as ih =>
    unfold insertByStart
    split
    · simp [List.mem_cons]
    · simp only [List.mem_cons, ih]
      tauto

theorem mem_sortByStart {x : Nat × Nat} {l : List (Nat × Nat)} :
    x ∈ sortByStart l ↔ x ∈ l := by
  induction l with
  | nil => simp [sortByStart]
  | cons a as ih =>
    simp only [sortByStart, List.foldr_cons] at *
    rw [mem_insertByStart, ih, List.mem_cons]

theorem sweep_lower (c0 : Nat) :
    ∀ (l : List (Nat × Nat)) (blocks : List (Nat × Nat)) (ct : Nat),
      c0 ≤ ct → (∀ p ∈ blocks, c0 ≤ p.1) →
      c0 ≤ (l.foldl sweepStep (blocks, ct)).2 ∧
        ∀ p ∈ (l.foldl sweepStep (blocks, ct)).1, c0 ≤ p.1 := by
  intro l
  induction l with
  | nil => intro blocks ct h1 h2; exact ⟨h1, h2⟩
  | cons bp rest ih =>
    intro blocks ct h1 h2
    simp only [List.foldl_cons, sweepStep]
    apply ih
    · exact le_trans h1 (Nat.le_max_left _ _)
    · intro p hp
      by_cases hc : ct < bp.1
      · rw [if_pos hc] at hp
        rcases List.mem_append.1 hp with hmem | hmem
        · exact h2 p hmem
        · rw [List.mem_singleton] at hmem
          subst hmem
          exact h1
      · rw [if_neg hc] at hp
        exact h2 p hp

theorem sweep_upper (c0 B : Nat) :
    ∀ (l : List (Nat × Nat)), (∀ x ∈ l, c0 < x.1 → x.1 ≤ B) →
      ∀ (blocks : List (Nat × Nat)) (ct : Nat),
      c0 ≤ ct → (∀ p ∈ blocks, p.2 ≤ B) →
      ∀ p ∈ (l.foldl sweepStep (blocks, ct)).1, p.2 ≤ B := by
  intro l
  induction l with
  | nil => intro _ blocks ct _ h2; exact h2
  | cons bp rest ih =>
    intro hl blocks ct h1 h2
    simp only [List.foldl_cons, sweepStep]
    apply ih (fun x hx => hl x (List.mem_cons_of_mem _ hx))
    · exact le_trans h1 (Nat.le_max_left _ _)
    · intro p hp
      by_cases hc : ct < bp.1
      · rw [if_pos hc] at hp
        rcases List.mem_append.1 hp with hmem | hmem
        · exact h2 p hmem
        · rw [List.mem_singleton] at hmem
          subst hmem
          exact hl bp (List.mem_cons_self _ _) (by omega)
      · rw [if_neg hc] at hp
        exact h2 p hp

theorem busyPeriods_start_bound {ct0 B : Nat} {sched : List Task}
    (hB : ∀ t ∈ sched, ∀ s e : DueV, t.dueStart = some s → t.dueEnd = some e →
      s.toMin ≤ B)
    {x : Nat × Nat} (hx : x ∈ busyPeriods ct0 sched) (hgt : ct0 < x.1) : x.1 ≤ B := by
  unfold busyPeriods at hx
  rw [List.mem_filterMap] at hx
  obtain ⟨t, ht, hft⟩ := hx
  cases h1 : t.dueStart with
  | none => rw [h1] at hft; simp at hft
  | some s =>
    cases h2 : t.dueEnd with
    | none => rw [h1, h2] at hft; simp at hft
    | some e =>
      rw [h1, h2] at hft
      simp only at hft
      by_cases hc : ct0 < e.toMin
      · rw [if_pos hc] at hft
        have hxval := Option.some.inj hft
        have hs := hB t ht s e h1 h2
        have hx1 : x.1 = max s.toMin ct0 := by rw [← hxval]
        rw [hx1] at hgt ⊢
        omega
      · rw [if_neg hc] at hft
        cases hft

/-- C5 counterexample: for a schedule holding one task time-boxed
23:30-23:45 (after the 23:00 window end) and now = 09:00 on day 0, the
Free-Block Calculator returns the free block (09:00, 23:30), whose end
exceeds `end_of_day` = 23:00; the claim's upper bound fails because busy
starts are never clipped to the window end. -/
theorem C5_free_block_beyond_window_end :
    calcAvailable 540 [lateWindowTask] 9 23 = [(540, 1410)] ∧
      dateOf 540 * 1440 + 23 * 60 = 1380 ∧ ¬((1410 : Nat) ≤ 1380) := by
  decide

/-- C5 amended: every free block's start is at least
`max(start_of_day, now)` unconditionally; its end is at most `end_of_day`
provided every busy task window of the schedule starts no later than
`end_of_day` (the code never clips a busy start to the window end, so a
busy interval beginning past it leaks into a free block's end). -/
theorem C5_free_blocks_within_window (now : Nat) (sched : List Task)
    (startHour endHour : Nat) :
    (∀ p ∈ calcAvailable now sched startHour endHour,
        max (dateOf now * 1440 + startHour * 60) now ≤ p.1) ∧
    ((∀ t ∈ sched, ∀ s e : DueV, t.dueStart = some s → t.dueEnd = some e →
        s.toMin ≤ dateOf now * 1440 + endHour * 60) →
      ∀ p ∈ calcAvailable now sched startHour endHour,
        p.2 ≤ dateOf now * 1440 + endHour * 60) := by
  have hsort : ∀ x ∈ sortByStart (busyPeriods
      (max (dateOf now * 1440 + startHour * 60) now) sched),
      x ∈ busyPeriods (max (dateOf now * 1440 + startHour * 60) now) sched :=
    fun x hx => mem_sortByStart.1 hx
  constructor
  · intro p hp
    unfold calcAvailable at hp
    simp only at hp
    have hlow := sweep_lower (max (dateOf now * 1440 + startHour * 60) now)
      (sortByStart (busyPeriods (max (dateOf now * 1440 + startHour * 60) now) sched))
      [] (max (dateOf now * 1440 + startHour * 60) now) (le_refl _) (by intro q hq; cases hq)
    by_cases hc : ((sortByStart (busyPeriods (max (dateOf now * 1440 + startHour * 60) now)
        sched)).foldl sweepStep ([], max (dateOf now * 1440 + startHour * 60) now)).2
        < dateOf now * 1440 + endHour * 60
    · rw [if_pos hc] at hp
      rcases List.mem_append.1 hp with hmem | hmem
      · exact hlow.2 p hmem
      · rw [List.mem_singleton] at hmem
        subst hmem
        exact hlow.1
    · rw [if_neg hc] at hp
      exact hlow.2 p hp
  · intro hB p hp
    unfold calcAvailable at hp
    simp only at hp
    have hbound : ∀ x ∈ sortByStart (busyPeriods
        (max (dateOf now * 1440 + startHour * 60) now) sched),
        max (dateOf now * 1440 + startHour * 60) now < x.1 →
        x.1 ≤ dateOf now * 1440 + endHour * 60 :=
      fun x hx hgt => busyPeriods_start_bound hB (hsort x hx) hgt
    have hup := sweep_upper (max (dateOf now * 1440 + startHour * 60) now)
      (dateOf now * 1440 + endHour * 60)
      (sortByStart (busyPeriods (max (dateOf now * 1440 + startHour * 60) now) sched))
      hbound [] (max (dateOf now * 1440 + startHour * 60) now) (le_refl _)
      (by intro q hq; cases hq)
    by_cases hc : ((sortByStart (busyPeriods (max (dateOf now * 1440 + startHour * 60) now)
        sched)).foldl sweepStep ([], max (dateOf now * 1440 + startHour * 60) now)).2
        < dateOf now * 1440 + endHour * 60
    · rw [if_pos hc] at hp
      rcases List.mem_append.1 hp with hmem | hmem
      · exact hup p hmem
      · rw [List.mem_singleton] at hmem
        subst hmem
        exact le_refl _
    · rw [if_neg hc] at hp
      exact hup p hp

/-- Witness for C5 at a concrete schedule whose busy window lies inside the
day window. -/
theorem C5_free_blocks_within_window_witness :
    (∀ t ∈ [highWindowTask], ∀ s e : DueV, t.dueStart = some s → t.dueEnd = some e →
        s.toMin ≤ dateOf 540 * 1440 + 23 * 60) ∧
    ∀ p ∈ calcAvailable 540 [highWindowTask] 9 23,
      p.2 ≤ dateOf 540 * 1440 + 23 * 60 := by
  have hB : ∀ t ∈ [highWindowTask], ∀ s e : DueV, t.dueStart = some s →
      t.dueEnd = some e → s.toMin ≤ dateOf 540 * 1440 + 23 * 60 := by
    intro t ht s e hs he
    rw [List.mem_singleton] at ht
    subst ht
    cases Option.some.inj hs
    cases Option.some.inj he
    decide
  exact ⟨hB, (C5_free_blocks_within_window 540 [highWindowTask] 9 23).2 hB⟩

/-! ## Frame lemmas for the decision loop and the single-task scheduler -/

theorem decisionLoop_frame (tm : Bool) (now : Nat) (task : Task) (tbm : Nat)
    (input : List Tok) :
    ∀ (s e : Nat) (st : SState) (aa al ig : Bool),
      (decisionLoop tm now task tbm s e st aa al ig input).allow = al ∧
      (decisionLoop tm now task tbm s e st aa al ig input).ignore = ig ∧
      (decisionLoop tm now task tbm s e st aa al ig input).st.dialogs = st.dialogs ∧
      (decisionLoop tm now task tbm s e st aa al ig input).st.names = st.names := by
  induction input with
  | nil => intro s e st aa al ig; simp [decisionLoop]
  | cons tok rest ih =>
    intro s e st aa al ig
    cases tok <;> simp only [decisionLoop] <;>
      first
        | (split <;> simp)
        | (exact ih _ _ _ _ _ _)

theorem sstCore_frame (tm : Bool) (now : Nat) (task : Task) (ct tbm s1 e1 : Nat)
    (st : SState) (aa al ig : Bool) (input : List Tok) :
    (sstCore tm now task ct tbm s1 e1 st aa al ig input).allow = al ∧
    (sstCore tm now task ct tbm s1 e1 st aa al ig input).ignore = ig ∧
    (sstCore tm now task ct tbm s1 e1 st aa al ig input).st.dialogs = st.dialogs := by
  unfold sstCore
  split
  · simp
  · split
    · split <;> simp
    · have h := decisionLoop_frame tm now task tbm input
        (proposedWindow now st.schedule tbm ig s1 e1).1
        (proposedWindow now st.schedule tbm ig s1 e1).2
        { st with names := task.name :: st.names } aa al ig
      exact ⟨h.1, h.2.1, h.2.2.1⟩

theorem sst_dialogs (tm : Bool) (now : Nat) (task : Task) (ct : Nat) (st : SState)
    (aa al ig : Bool) (input : List Tok) :
    (scheduleSingleTask tm now task ct st aa al ig input).st.dialogs =
      st.dialogs + (if 23 ≤ hourOfMin (initialWindow ct task.status).1
          ∧ al = false ∧ ig = false then 1 else 0) := by
  unfold scheduleSingleTask
  by_cases hb : 23 ≤ hourOfMin (initialWindow ct task.status).1 ∧ al = false ∧ ig = false
  · simp only [hb, if_true]
    cases input with
    | nil => simp
    | cons tok rest =>
      cases tok <;> simp [sstCore_frame]
      split <;> rfl
  · simp only [hb, if_false]
    simpa using (sstCore_frame tm now task ct (priorityToTimeBlock task.priority)
      (initialWindow ct task.status).1 (initialWindow ct task.status).2
      st aa al ig input).2.2

theorem sst_allow_mono (tm : Bool) (now : Nat) (task : Task) (ct : Nat) (st : SState)
    (aa ig : Bool) (input : List Tok) :
    (scheduleSingleTask tm now task ct st aa true ig input).allow = true := by
  unfold scheduleSingleTask
  rw [if_neg (by simp)]
  exact (sstCore_frame tm now task ct _ _ _ st aa true ig input).1

theorem sst_ignore_mono (tm : Bool) (now : Nat) (task : Task) (ct : Nat) (st : SState)
    (aa al : Bool) (input : List Tok) :
    (scheduleSingleTask tm now task ct st aa al true input).ignore = true := by
  unfold scheduleSingleTask
  rw [if_neg (by simp)]
  exact (sstCore_frame tm now task ct _ _ _ st aa al true input).2.1

theorem runQueue_flags_dialogs (tm : Bool) (now : Nat) :
    ∀ (queue : List Task) (ct : Nat) (st : SState) (aa al ig : Bool)
      (input : List Tok), al = true ∨ ig = true →
      (runQueue tm now queue ct st aa al ig input).st.dialogs = st.dialogs ∧
      ((runQueue tm now queue ct st aa al ig input).allow = true ∨
       (runQueue tm now queue ct st aa al ig input).ignore = true) := by
  intro queue
  induction queue with
  | nil => intro ct st aa al ig input h; simp [runQueue, h]
  | cons t ts ih =>
    intro ct st aa al ig input h
    have hdia : (scheduleSingleTask tm now t ct st aa al ig input).st.dialogs
        = st.dialogs := by
      rw [sst_dialogs, if_neg (by rcases h with h | h <;> simp [h])]
      rfl
    have hfl : (scheduleSingleTask tm now t ct st aa al ig input).allow = true ∨
        (scheduleSingleTask tm now t ct st aa al ig input).ignore = true := by
      rcases h with h | h
      · subst h; exact Or.inl (sst_allow_mono tm now t ct st aa ig input)
      · subst h; exact Or.inr (sst_ignore_mono tm now t ct st aa al input)
    cases hres : (scheduleSingleTask tm now t ct st aa al ig input).res with
    | cont nt =>
      simp only [runQueue, hres]
      have hnext := ih nt (scheduleSingleTask tm now t ct st aa al ig input).st
        (scheduleSingleTask tm now t ct st aa al ig input).acceptAll
        (scheduleSingleTask tm now t ct st aa al ig input).allow
        (scheduleSingleTask tm now t ct st aa al ig input).ignore
        (scheduleSingleTask tm now t ct st aa al ig input).rest hfl
      exact ⟨hnext.1.trans hdia, hnext.2⟩
    | halt => simp only [runQueue, hres]; exact ⟨hdia, hfl⟩
    | aborted => simp only [runQueue, hres]; exact ⟨hdia, hfl⟩

/-- C6: the boundary sub-dialog of `schedule_single_task` is entered exactly
when the candidate start's local hour is at least 23 and both
`allow_late_night` and `ignore_availability` are unset; and across the
Session Driver's queue, once either flag holds the dialog is never entered
again for any later task (the flags are threaded and never reset). -/
theorem C6_boundary_dialog_once :
    (∀ (tm : Bool) (now : Nat) (task : Task) (ct : Nat) (st : SState)
        (aa al ig : Bool) (input : List Tok),
        (scheduleSingleTask tm now task ct st aa al ig input).st.dialogs =
          st.dialogs + (if 23 ≤ hourOfMin (initialWindow ct task.status).1
              ∧ al = false ∧ ig = false then 1 else 0)) ∧
    (∀ (tm : Bool) (now : Nat) (queue : List Task) (ct : Nat) (st : SState)
        (aa al ig : Bool) (input : List Tok), al = true ∨ ig = true →
        (runQueue tm now queue ct st aa al ig input).st.dialogs = st.dialogs ∧
        ((runQueue tm now queue ct st aa al ig input).allow = true ∨
         (runQueue tm now queue ct st aa al ig input).ignore = true)) :=
  ⟨sst_dialogs, fun tm now queue ct st aa al ig input h =>
    runQueue_flags_dialogs tm now queue ct st aa al ig input h⟩

/-- Witness for C6: with allow-late-night already set, a task whose
candidate start is 23:00 triggers no dialog. -/
theorem C6_boundary_dialog_once_witness :
    ((true : Bool) = true ∨ (false : Bool) = true) ∧
    (runQueue false 0 [lowTaskA] 1380 emptyState false true false []).st.dialogs
      = emptyState.dialogs :=
  ⟨Or.inl rfl,
    (C6_boundary_dialog_once.2 false 0 [lowTaskA] 1380 emptyState false true false []
      (Or.inl rfl)).1⟩

/-- The full effect of answering `S` (defer to tomorrow) at the interactive
prompt, outside test mode, with ignore-availability unset: the name is
recorded, the due date is patched to the day after the (repaired) proposal
start, and `None` is returned. -/
theorem sst_interactive_S (now ct : Nat) (task : Task) (st : SState) (al : Bool)
    (rest : List Tok) (hname : task.name ∉ st.names)
    (hb : ¬(23 ≤ hourOfMin (initialWindow ct task.status).1 ∧ al = false)) :
    scheduleSingleTask false now task ct st false al false (Tok.S :: rest)
      = ⟨SRes.halt, al, false, false,
          { st with
            names := task.name :: st.names,
            patches := st.patches ++ [Patch.dateOnly task.id
              (dateOf (proposedWindow now st.schedule (priorityToTimeBlock task.priority)
                  false (initialWindow ct task.status).1
                  (initialWindow ct task.status).2).1 + 1)] }, rest⟩ := by
  have hb' : ¬(23 ≤ hourOfMin (initialWindow ct task.status).1 ∧ al = false ∧ True) := by
    simpa using hb
  simp only [scheduleSingleTask]
  rw [if_neg hb']
  simp only [sstCore]
  rw [if_neg hname]
  simp [decisionLoop]

/-- C7: deferring a task to tomorrow patches its due date to a bare date
exactly one calendar day after the proposal date, with no end timestamp, so
the (derived) assigned-time flag of the patched task is cleared; the
in-memory schedule is untouched. -/
theorem C7_defer_tomorrow_round_trip (now ct : Nat) (task : Task) (st : SState)
    (al : Bool) (rest : List Tok)
    (hname : task.name ∉ st.names)
    (hb : ¬(23 ≤ hourOfMin (initialWindow ct task.status).1 ∧ al = false)) :
    (scheduleSingleTask false now task ct st false al false (Tok.S :: rest)).res
        = SRes.halt ∧
    (scheduleSingleTask false now task ct st false al false (Tok.S :: rest)).st.patches
        = st.patches ++ [Patch.dateOnly task.id
            (dateOf (proposedWindow now st.schedule (priorityToTimeBlock task.priority)
                false (initialWindow ct task.status).1
                (initialWindow ct task.status).2).1 + 1)] ∧
    (scheduleSingleTask false now task ct st false al false (Tok.S :: rest)).st.schedule
        = st.schedule ∧
    ∀ d : Nat,
      (applyDateOnlyPatch d task).dueStart = some (DueV.date d) ∧
      (applyDateOnlyPatch d task).dueEnd = none ∧
      hasAssignedTime (applyDateOnlyPatch d task) = false := by
  rw [sst_interactive_S now ct task st al rest hname hb]
  exact ⟨rfl, rfl, rfl, fun d => ⟨rfl, rfl, rfl⟩⟩

/-- Witness for C7 at a concrete Low task deferred from cursor 10:00. -/
theorem C7_defer_tomorrow_round_trip_witness :
    lowTaskA.name ∉ emptyState.names ∧
    ¬(23 ≤ hourOfMin (initialWindow 600 lowTaskA.status).1 ∧ false = false) ∧
    (scheduleSingleTask false 0 lowTaskA 600 emptyState false false false [Tok.S]).st.patches
      = emptyState.patches ++ [Patch.dateOnly lowTaskA.id
          (dateOf (proposedWindow 0 emptyState.schedule
              (priorityToTimeBlock lowTaskA.priority) false
              (initialWindow 600 lowTaskA.status).1
              (initialWindow 600 lowTaskA.status).2).1 + 1)] :=
  ⟨by decide, by decide,
    (C7_defer_tomorrow_round_trip 0 600 lowTaskA emptyState false []
      (by decide) (by decide)).2.1⟩

/-- C9 counterexample: a later task sharing an already-seen display name,
reached at local hour 23 with no override flags, is not skipped: the
boundary sub-dialog fires first, and answering `T` patches the task's due
date and halts the session instead of returning the cursor unchanged. -/
theorem C9_boundary_preempts_duplicate_skip :
    (scheduleSingleTask false 0 sameNameTask 1380 ⟨[], ["a"], [], 0⟩
        false false false [Tok.T]).res = SRes.halt ∧
    (scheduleSingleTask false 0 sameNameTask 1380 ⟨[], ["a"], [], 0⟩
        false false false [Tok.T]).st.patches = [Patch.dateOnly 2 1] ∧
    sameNameTask.name ∈ (["a"] : List String) := by
  decide

/-- C9 amended: the duplicate-suppression set gains the display name as soon
as the proposal is presented interactively (before any decision token is
read, whatever the input), and every later call for a same-named task that
reaches the duplicate check - that is, one not diverted by the boundary
sub-dialog - returns the cursor unchanged with the whole session state
untouched. -/
theorem C9_duplicate_suppression (tm : Bool) (now ct : Nat) (task : Task)
    (st : SState) (al ig : Bool) (input : List Tok)
    (hb : ¬(23 ≤ hourOfMin (initialWindow ct task.status).1 ∧ al = false ∧ ig = false)) :
    (task.name ∉ st.names →
      task.name ∈ (scheduleSingleTask tm now task ct st false al ig input).st.names) ∧
    (task.name ∈ st.names →
      scheduleSingleTask tm now task ct st false al ig input
        = ⟨SRes.cont ct, al, ig, false, st, input⟩) := by
  constructor
  · intro hname
    simp only [scheduleSingleTask]
    rw [if_neg hb]
    simp only [sstCore]
    rw [if_neg hname]
    simp only [Bool.false_eq_true, if_false]
    rw [(decisionLoop_frame tm now task (priorityToTimeBlock task.priority) input
      _ _ { st with names := task.name :: st.names } false al ig).2.2.2]
    exact List.mem_cons_self _ _
  · intro hmem
    simp only [scheduleSingleTask]
    rw [if_neg hb]
    simp only [sstCore]
    rw [if_pos hmem]

/-- Witness for C9: a same-named later task at cursor 10:00 is skipped with
everything unchanged. -/
theorem C9_duplicate_suppression_witness :
    ¬(23 ≤ hourOfMin (initialWindow 600 sameNameTask.status).1
        ∧ false = false ∧ false = false) ∧
    sameNameTask.name ∈ (⟨[], ["a"], [], 0⟩ : SState).names ∧
    scheduleSingleTask false 0 sameNameTask 600 ⟨[], ["a"], [], 0⟩ false false false []
      = ⟨SRes.cont 600, false, false, false, ⟨[], ["a"], [], 0⟩, []⟩ :=
  ⟨by decide, by decide,
    (C9_duplicate_suppression false 0 600 sameNameTask ⟨[], ["a"], [], 0⟩ false false []
      (by decide)).2 (by decide)⟩

/-- C10: in accept-all mode a task whose name is not yet recorded is
committed (store patch of the repaired window plus priority) while the
duplicate-suppression set is left untouched, and the cursor advances to the
window end; consequently two distinct tasks sharing a display name are both
committed when both are processed in accept-all mode, as the concrete
two-task run shows. -/
theorem C10_accept_all_skips_name_set (now ct : Nat) (task : Task) (st : SState)
    (al : Bool) (input : List Tok)
    (hname : task.name ∉ st.names)
    (hb : ¬(23 ≤ hourOfMin (initialWindow ct task.status).1 ∧ al = false)) :
    ((scheduleSingleTask false now task ct st true al false input).st.names = st.names ∧
     (scheduleSingleTask false now task ct st true al false input).st.patches
        = st.patches ++ [Patch.dateTime task.id
            (proposedWindow now st.schedule (priorityToTimeBlock task.priority) false
              (initialWindow ct task.status).1 (initialWindow ct task.status).2).1
            (proposedWindow now st.schedule (priorityToTimeBlock task.priority) false
              (initialWindow ct task.status).1 (initialWindow ct task.status).2).2
            task.priority] ∧
     (scheduleSingleTask false now task ct st true al false input).res
        = SRes.cont (proposedWindow now st.schedule (priorityToTimeBlock task.priority)
            false (initialWindow ct task.status).1 (initialWindow ct task.status).2).2) ∧
    (runQueue false 0 [lowTaskA, sameNameTask] 600 emptyState true false false []).st.patches
      = [Patch.dateTime 1 600 630 "Low", Patch.dateTime 2 630 660 "Low"] := by
  have hb' : ¬(23 ≤ hourOfMin (initialWindow ct task.status).1 ∧ al = false ∧ True) := by
    simpa using hb
  constructor
  · simp only [scheduleSingleTask]
    rw [if_neg hb']
    simp only [sstCore]
    rw [if_neg hname, if_pos trivial, if_neg Bool.false_ne_true]
    exact ⟨rfl, rfl, rfl⟩
  · decide

/-- Witness for C10 at a concrete accept-all commit. -/
theorem C10_accept_all_skips_name_set_witness :
    lowTaskA.name ∉ emptyState.names ∧
    (scheduleSingleTask false 0 lowTaskA 600 emptyState true false false []).st.names
      = emptyState.names :=
  ⟨by decide,
    ((C10_accept_all_skips_name_set 0 600 lowTaskA emptyState false []
      (by decide) (by decide)).1).1⟩

/-- C2 counterexample: after the operator defers the first of two queued
tasks to tomorrow, the Session Driver stops: the second task is never
presented (its name is absent from the duplicate-suppression set, it
receives no patch and remains in the abandoned queue), refuting the claim
that the driver continues processing every remaining task. -/
theorem C2_defer_abandons_remaining_tasks :
    (scheduleTasksInPattern false 0 [lowTaskA, lowTaskB] 600 [] [Tok.S]).halted = true ∧
    (scheduleTasksInPattern false 0 [lowTaskA, lowTaskB] 600 [] [Tok.S]).remaining
      = [lowTaskB] ∧
    (scheduleTasksInPattern false 0 [lowTaskA, lowTaskB] 600 [] [Tok.S]).st.names
      = ["a"] ∧
    (scheduleTasksInPattern false 0 [lowTaskA, lowTaskB] 600 [] [Tok.S]).st.patches
      = [Patch.dateOnly 1 1] := by
  decide

/-- C2 amended: Defer-to-tomorrow patches only the task's due date
(date-only), leaves the in-memory schedule untouched and yields the same
`None` return as Halt, so the Session Driver stops processing all remaining
tasks of the session after a Defer exactly as it does after a Halt. -/
theorem C2_defer_halts_like_halt :
    (∀ (now ct : Nat) (task : Task) (st : SState) (al : Bool) (rest : List Tok),
        task.name ∉ st.names →
        ¬(23 ≤ hourOfMin (initialWindow ct task.status).1 ∧ al = false) →
        (scheduleSingleTask false now task ct st false al false (Tok.S :: rest)).res
            = SRes.halt ∧
        (scheduleSingleTask false now task ct st false al false (Tok.S :: rest)).st.schedule
            = st.schedule) ∧
    (∀ (tm : Bool) (now : Nat) (t : Task) (ts : List Task) (ct : Nat) (st : SState)
        (aa al ig : Bool) (input : List Tok),
        (scheduleSingleTask tm now t ct st aa al ig input).res = SRes.halt →
        (runQueue tm now (t :: ts) ct st aa al ig input).halted = true ∧
        (runQueue tm now (t :: ts) ct st aa al ig input).remaining = ts) := by
  constructor
  · intro now ct task st al rest hname hb
    rw [sst_interactive_S now ct task st al rest hname hb]
    exact ⟨rfl, rfl⟩
  · intro tm now t ts ct st aa al ig input hres
    simp [runQueue, hres]

/-- Witness for C2 on the concrete two-task deferral run. -/
theorem C2_defer_halts_like_halt_witness :
    (scheduleSingleTask false 0 lowTaskA 600 emptyState false false false [Tok.S]).res
        = SRes.halt ∧
    (runQueue false 0 [lowTaskA, lowTaskB] 600 emptyState false false false [Tok.S]).remaining
        = [lowTaskB] :=
  ⟨(C2_defer_halts_like_halt.1 0 600 lowTaskA emptyState false [] (by decide) (by decide)).1,
    (C2_defer_halts_like_halt.2 false 0 lowTaskA [lowTaskB] 600 emptyState false false false
      [Tok.S] (C2_defer_halts_like_halt.1 0 600 lowTaskA emptyState false []
        (by decide) (by decide)).1).2⟩

/-! ## The pairwise non-overlap invariant of the in-memory schedule -/

theorem taskOverlap_of_end_none {a b : Task} (h : a.dueEnd = none) :
    taskOverlap a b = false := by
  unfold taskOverlap
  cases hs : a.dueStart <;> rw [h]

theorem taskOverlap_of_other_end_none {a b : Task} (h : b.dueEnd = none) :
    taskOverlap a b = false := by
  unfold taskOverlap checkForOverlap
  cases hs : a.dueStart with
  | none => rfl
  | some sa =>
    cases he : a.dueEnd with
    | none => rfl
    | some ea =>
      cases hbs : b.dueStart <;> simp [hbs, h]

theorem taskOverlap_window {a b : Task} {sa ea sb eb : DueV}
    (ha1 : a.dueStart = some sa) (ha2 : a.dueEnd = some ea)
    (hb1 : b.dueStart = some sb) (hb2 : b.dueEnd = some eb) :
    taskOverlap a b = decide (sa.toMin < eb.toMin ∧ ea.toMin > sb.toMin) := by
  unfold taskOverlap checkForOverlap
  rw [ha1, ha2]
  simp [hb1, hb2]

theorem noOverlap_append_clear {sched : List Task} {ps pe : Nat} {t : Task}
    (hw1 : t.dueStart = some (.dateTime ps)) (hw2 : t.dueEnd = some (.dateTime pe))
    (hc : checkForOverlap sched ps pe = false)
    (h : NoOverlapSchedule sched) : NoOverlapSchedule (sched ++ [t]) := by
  unfold NoOverlapSchedule at *
  rw [List.pairwise_append]
  refine ⟨h, List.pairwise_singleton _ _, ?_⟩
  intro a ha b hb
  rw [List.mem_singleton] at hb
  subst hb
  cases h1 : a.dueStart with
  | none => unfold taskOverlap; rw [h1]
  | some sa =>
    cases h2 : a.dueEnd with
    | none => exact taskOverlap_of_end_none h2
    | some ea =>
      rw [taskOverlap_window h1 h2 hw1 hw2]
      have hcl := checkForOverlap_false_elem hc ha h1 h2
      simp only [DueV.toMin, decide_eq_false_iff_not]
      intro hcon
      exact hcl ⟨hcon.2, hcon.1⟩

theorem noOverlap_append_endless {sched : List Task} {t : Task}
    (h2 : t.dueEnd = none) (h : NoOverlapSchedule sched) :
    NoOverlapSchedule (sched ++ [t]) := by
  unfold NoOverlapSchedule at *
  rw [List.pairwise_append]
  refine ⟨h, List.pairwise_singleton _ _, ?_⟩
  intro a _ b hb
  rw [List.mem_singleton] at hb
  subst hb
  exact taskOverlap_of_other_end_none h2

theorem noOverlap_erase {sched : List Task} {t : Task}
    (h : NoOverlapSchedule sched) : NoOverlapSchedule (sched.erase t) :=
  List.Pairwise.sublist (List.erase_sublist t sched) h

theorem noOverlap_append_if_endless {sched : List Task} {t : Task}
    (h2 : t.dueEnd = none) (h : NoOverlapSchedule sched) :
    NoOverlapSchedule (if t ∈ sched then sched else sched ++ [t]) := by
  by_cases hmem : t ∈ sched
  · rwa [if_pos hmem]
  · rw [if_neg hmem]
    exact noOverlap_append_endless h2 h

theorem decisionLoop_noOverlap (tm : Bool) (now : Nat) (task : Task) (tbm : Nat)
    (hend : task.dueEnd = none) (input : List Tok) :
    ∀ (s e : Nat) (st : SState) (aa al : Bool),
      NoOverlapSchedule st.schedule →
      NoOverlapSchedule (decisionLoop tm now task tbm s e st aa al false input).st.schedule := by
  induction input with
  | nil => intro s e st aa al hno; simpa [decisionLoop] using hno
  | cons tok rest ih =>
    intro s e st aa al hno
    cases tok with
    | Y =>
      simp only [decisionLoop]
      split
      · exact hno
      · exact noOverlap_append_if_endless hend hno
    | acceptAll =>
      simp only [decisionLoop]
      split
      · exact hno
      · exact noOverlap_append_if_endless hend hno
    | H =>
      simp only [decisionLoop]
      split
      · exact hno
      · exact noOverlap_append_if_endless hend hno
    | S =>
      simp only [decisionLoop]
      split
      · exact hno
      · exact hno
    | W =>
      simp only [decisionLoop]
      split
      · exact hno
      · exact hno
    | X =>
      simp only [decisionLoop]
      split
      · exact hno
      · exact noOverlap_erase hno
    | C =>
      simp only [decisionLoop]
      split
      · exact hno
      · exact noOverlap_erase hno
    | time m =>
      simp only [decisionLoop]
      exact ih _ _ st aa al hno
    | T => simp only [decisionLoop]; exact ih _ _ st aa al hno
    | R => simp only [decisionLoop]; exact ih _ _ st aa al hno
    | Q => simp only [decisionLoop]; exact ih _ _ st aa al hno
    | other => simp only [decisionLoop]; exact ih _ _ st aa al hno

theorem sstCore_noOverlap (tm : Bool) (now : Nat) (task : Task) (ct tbm s1 e1 : Nat)
    (st : SState) (aa al : Bool) (input : List Tok)
    (htbm : 0 < tbm) (hse : s1 < e1) (hend : task.dueEnd = none)
    (hno : NoOverlapSchedule st.schedule) :
    NoOverlapSchedule (sstCore tm now task ct tbm s1 e1 st aa al false input).st.schedule := by
  have hpw : proposedWindow now st.schedule tbm false s1 e1
      = repairedWindow st.schedule tbm s1 e1 := by
    unfold proposedWindow
    rw [if_neg Bool.false_ne_true]
  have hclear : checkForOverlap st.schedule
      (proposedWindow now st.schedule tbm false s1 e1).1
      (proposedWindow now st.schedule tbm false s1 e1).2 = false := by
    rw [hpw]
    exact repairedWindow_clear htbm hse
  unfold sstCore
  split
  · exact hno
  · split
    · split
      · exact hno
      · by_cases hmem : ({ task with
            dueStart := some (.dateTime (proposedWindow now st.schedule tbm false s1 e1).1),
            dueEnd := some (.dateTime (proposedWindow now st.schedule tbm false s1 e1).2) }
              : Task) ∈ st.schedule
        · simpa [hmem] using hno
        · simp only [hmem, if_false]
          exact noOverlap_append_clear rfl rfl hclear hno
    · exact decisionLoop_noOverlap tm now task tbm hend input _ _
        { st with names := task.name :: st.names } aa al hno

theorem sst_noOverlap (tm : Bool) (now : Nat) (task : Task) (ct : Nat) (st : SState)
    (aa al : Bool) (input : List Tok) (hend : task.dueEnd = none)
    (hno : NoOverlapSchedule st.schedule)
    (hig : (scheduleSingleTask tm now task ct st aa al false input).ignore = false) :
    NoOverlapSchedule (scheduleSingleTask tm now task ct st aa al false input).st.schedule := by
  have hse : (initialWindow ct task.status).1 < (initialWindow ct task.status).2 := by
    rw [initialWindow_snd]
    omega
  by_cases hb : 23 ≤ hourOfMin (initialWindow ct task.status).1 ∧ al = false
  · have hb' : 23 ≤ hourOfMin (initialWindow ct task.status).1 ∧ al = false ∧ True :=
      ⟨hb.1, hb.2, trivial⟩
    cases input with
    | nil =>
      simp only [scheduleSingleTask] at hig ⊢
      rw [if_pos hb']
      exact hno
    | cons tok rest =>
      cases tok <;> simp only [scheduleSingleTask] at hig ⊢ <;> rw [if_pos hb'] at hig ⊢
      · exact sstCore_noOverlap tm now task ct _ _ _
          { st with dialogs := st.dialogs + 1 } aa true rest
          (priorityToTimeBlock_pos _) hse hend hno
      · exact hno
      · exact hno
      · exact hno
      · exact hno
      · exact hno
      · split <;> exact hno
      · exfalso
        rw [(sstCore_frame tm now task ct (priorityToTimeBlock task.priority)
          (initialWindow ct task.status).1 (initialWindow ct task.status).2
          { st with dialogs := st.dialogs + 1 } aa al true rest).2.1] at hig
        cases hig
      · exact hno
      · exact hno
      · exact hno
      · exact hno
  · have hb'' : ¬(23 ≤ hourOfMin (initialWindow ct task.status).1 ∧ al = false ∧ True) := by
      simpa using hb
    simp only [scheduleSingleTask] at hig ⊢
    rw [if_neg hb'']
    exact sstCore_noOverlap tm now task ct _ _ _ st aa al input
      (priorityToTimeBlock_pos _) hse hend hno

theorem runQueue_ignore_mono (tm : Bool) (now : Nat) :
    ∀ (queue : List Task) (ct : Nat) (st : SState) (aa al : Bool) (input : List Tok),
      (runQueue tm now queue ct st aa al true input).ignore = true := by
  intro queue
  induction queue with
  | nil => intro ct st aa al input; rfl
  | cons t ts ih =>
    intro ct st aa al input
    cases hres : (scheduleSingleTask tm now t ct st aa al true input).res with
    | cont nt =>
      simp only [runQueue, hres]
      rw [sst_ignore_mono tm now t ct st aa al input]
      exact ih _ _ _ _ _
    | halt =>
      simp only [runQueue, hres]
      exact sst_ignore_mono tm now t ct st aa al input
    | aborted =>
      simp only [runQueue, hres]
      exact sst_ignore_mono tm now t ct st aa al input

theorem runQueue_noOverlap (tm : Bool) (now : Nat) :
    ∀ (queue : List Task) (ct : Nat) (st : SState) (aa al : Bool) (input : List Tok),
      (∀ t ∈ queue, t.dueEnd = none) →
      NoOverlapSchedule st.schedule →
      (runQueue tm now queue ct st aa al false input).ignore = false →
      NoOverlapSchedule (runQueue tm now queue ct st aa al false input).st.schedule := by
  intro queue
  induction queue with
  | nil => intro ct st aa al input _ hno _; simpa [runQueue] using hno
  | cons t ts ih =>
    intro ct st aa al input hq hno hig
    have hqt : t.dueEnd = none := hq t (List.mem_cons_self _ _)
    have hqts : ∀ u ∈ ts, u.dueEnd = none := fun u hu => hq u (List.mem_cons_of_mem _ hu)
    cases hres : (scheduleSingleTask tm now t ct st aa al false input).res with
    | cont nt =>
      simp only [runQueue, hres] at hig ⊢
      rcases Bool.eq_false_or_eq_true
          (scheduleSingleTask tm now t ct st aa al false input).ignore with hoig | hoig
      · rw [hoig] at hig
        rw [runQueue_ignore_mono] at hig
        cases hig
      · rw [hoig] at hig ⊢
        exact ih nt _ _ _ _ hqts (sst_noOverlap tm now t ct st aa al input hqt hno hoig) hig
    | halt =>
      simp only [runQueue, hres] at hig ⊢
      exact sst_noOverlap tm now t ct st aa al input hqt hno hig
    | aborted =>
      simp only [runQueue, hres] at hig ⊢
      exact sst_noOverlap tm now t ct st aa al input hqt hno hig

theorem driveQueues_noOverlap (tm : Bool) (now : Nat) (q1 q2 : List Task)
    (startingTime : Nat) (initSchedule : List Task) (input : List Tok)
    (hq1 : ∀ t ∈ q1, t.dueEnd = none) (hq2 : ∀ t ∈ q2, t.dueEnd = none)
    (h1 : NoOverlapSchedule initSchedule)
    (hig : (driveQueues tm now q1 q2 startingTime initSchedule input).ignore = false) :
    NoOverlapSchedule (driveQueues tm now q1 q2 startingTime initSchedule input).st.schedule := by
  simp only [driveQueues] at hig ⊢
  by_cases hh : (runQueue tm now q1 startingTime ⟨initSchedule, [], [], 0⟩
      false false false input).halted = true
  · rw [if_pos hh] at hig ⊢
    exact runQueue_noOverlap tm now q1 startingTime ⟨initSchedule, [], [], 0⟩
      false false input hq1 h1 hig
  · rw [if_neg hh] at hig ⊢
    rcases Bool.eq_false_or_eq_true
        (runQueue tm now q1 startingTime ⟨initSchedule, [], [], 0⟩ false false false
          input).ignore with hig1 | hig1
    · rw [hig1] at hig
      rw [runQueue_ignore_mono] at hig
      cases hig
    · rw [hig1] at hig ⊢
      exact runQueue_noOverlap tm now q2 _ _ _ _ _ hq2
        (runQueue_noOverlap tm now q1 startingTime ⟨initSchedule, [], [], 0⟩
          false false input hq1 h1 hig1) hig

/-- C3 counterexample: a normal-mode run (ignore-availability never set)
whose initial in-memory schedule already holds two overlapping windows ends
with those two entries still present, and the Overlap Checker reports their
intersection; the new task is committed into a repaired slot but the claimed
pairwise property fails on the pre-existing pair. -/
theorem C3_initial_overlap_survives :
    (scheduleTasksInPattern false 0 [lowTaskA] 600
        [highWindowTask, lowWindowTask] [Tok.Y]).ignore = false ∧
    (scheduleTasksInPattern false 0 [lowTaskA] 600
        [highWindowTask, lowWindowTask] [Tok.Y]).st.schedule
      = [highWindowTask, lowWindowTask, lowTaskA] ∧
    taskOverlap highWindowTask lowWindowTask = true := by
  decide

/-- C3 amended: after a session run that never set ignore-availability, the
in-memory schedule is pairwise overlap-free, provided the store's initial
time-boxed schedule was pairwise overlap-free and every queued task's stored
due window has no end timestamp (interactive commits append the task with
its stale due fields, so a queued task carrying an old window could
otherwise re-introduce an overlapping entry). -/
theorem C3_normal_mode_no_overlap (tm : Bool) (now : Nat) (tasks : List Task)
    (startingTime : Nat) (initSchedule : List Task) (input : List Tok)
    (h1 : NoOverlapSchedule initSchedule)
    (h2 : ∀ t ∈ tasks, t.dueEnd = none)
    (h3 : (scheduleTasksInPattern tm now tasks startingTime initSchedule input).ignore
      = false) :
    NoOverlapSchedule
      (scheduleTasksInPattern tm now tasks startingTime initSchedule input).st.schedule := by
  have hmem : ∀ (p : Task → Bool) (l : List Task), (∀ t ∈ l, t.dueEnd = none) →
      ∀ t ∈ l.filter p, t.dueEnd = none :=
    fun p l h t ht => h t (List.mem_filter.1 ht).1
  simp only [scheduleTasksInPattern] at h3 ⊢
  refine driveQueues_noOverlap tm now _ _ startingTime initSchedule input ?_ ?_ h1 h3
  · intro t ht
    rcases List.mem_append.1 ht with ht | ht <;>
      exact hmem _ _ (hmem _ _ (hmem _ _ h2)) t ht
  · exact hmem _ _ (hmem _ _ h2)

/-- Witness for C3 on a clean one-task session committed with Apply. -/
theorem C3_normal_mode_no_overlap_witness :
    NoOverlapSchedule [highWindowTask] ∧
    (∀ t ∈ [lowTaskA], t.dueEnd = none) ∧
    (scheduleTasksInPattern false 0 [lowTaskA] 600 [highWindowTask] [Tok.Y]).ignore
      = false ∧
    NoOverlapSchedule
      (scheduleTasksInPattern false 0 [lowTaskA] 600 [highWindowTask] [Tok.Y]).st.schedule := by
  have h1 : NoOverlapSchedule [highWindowTask] := List.pairwise_singleton _ _
  have h2 : ∀ t ∈ [lowTaskA], t.dueEnd = none := by
    intro t ht
    rw [List.mem_singleton] at ht
    subst ht
    rfl
  have h3 : (scheduleTasksInPattern false 0 [lowTaskA] 600 [highWindowTask]
      [Tok.Y]).ignore = false := by decide
  exact ⟨h1, h2, h3,
    C3_normal_mode_no_overlap false 0 [lowTaskA] 600 [highWindowTask] [Tok.Y] h1 h2 h3⟩

end NotionTriage
